import Mathlib

/-!
Shallow embedding of the smart-parking pricing notebook
(`smart_parking_pricing_system.ipynb`): the three pricing models
(linear, demand-based, competitive), the haversine neighbor lookup,
and — modelled from the design spec where the repository has no code —
the per-tick streaming/emission semantics.

Prices are embedded as exact rationals (`ℚ`); geographic coordinates,
which feed the transcendental haversine formula, as reals (`ℝ`).
-/

open scoped Classical

/-- Rounding to two decimals, as Python's `round(x, 2)`. Mathlib's `round`
rounds half away from zero upward while Python rounds half to even; no value
exercised in this development hits a tie. -/
def round2 (q : ℚ) : ℚ := ((round (q * 100) : ℤ) : ℚ) / 100

/-- Model 1, `linear_pricing_model(occupancy, capacity, base_price=10.0, alpha=5.0)`:
`round(base_price + alpha * (occupancy / capacity), 2)`. -/
def linear_pricing_model (occupancy capacity base_price alpha : ℚ) : ℚ :=
  round2 (base_price + alpha * (occupancy / capacity))

/-- `linear_pricing_model` with Python's partiality made explicit: integer
division by zero raises `ZeroDivisionError`, embedded as `none`. -/
def linear_pricing_model_checked (occupancy capacity base_price alpha : ℚ) : Option ℚ :=
  if capacity = 0 then none
  else some (linear_pricing_model occupancy capacity base_price alpha)

/-- Traffic condition categories, per the preprocessing cell's map. -/
inductive TrafficLevel
  | low
  | medium
  | high
deriving DecidableEq

/-- `df['TrafficConditionEncoded'] = map({'low': 0, 'medium': 1, 'high': 2})`. -/
def encodeTraffic : TrafficLevel → ℚ
  | TrafficLevel.low => 0
  | TrafficLevel.medium => 1
  | TrafficLevel.high => 2

/-- Vehicle type categories, per the preprocessing cell's map. -/
inductive VehicleType
  | bike
  | car
  | truck
deriving DecidableEq

/-- `df['VehicleTypeEncoded'] = map({'car': 1.0, 'bike': 0.5, 'truck': 1.5})`. -/
def encodeVehicle : VehicleType → ℚ
  | VehicleType.bike => 0.5
  | VehicleType.car => 1
  | VehicleType.truck => 1.5

/-- The columns `demand_based_price` reads from a dataframe row. -/
structure DemandRow where
  normalizedOccupancyRate : ℚ
  normalizedQueueLength : ℚ
  trafficConditionEncoded : ℚ
  vehicleTypeEncoded : ℚ
  isSpecialDay : ℚ

/-- The demand score of `demand_based_price`: the weighted sum with
weights 0.4/0.3/0.1/0.1/0.1, clamped to `[0, 1]` by `min(max(demand, 0), 1)`. -/
def demandScore (row : DemandRow) : ℚ :=
  min (max (0.4 * row.normalizedOccupancyRate +
            0.3 * row.normalizedQueueLength +
            0.1 * row.trafficConditionEncoded / 2 +
            0.1 * row.vehicleTypeEncoded / 1.5 +
            0.1 * row.isSpecialDay) 0) 1

/-- Model 2, `demand_based_price(row, base_price=10.0, lambd=0.5)`:
`round(min(max(base_price * (1 + lambd * demand), 5), 20), 2)`. -/
def demand_based_price (row : DemandRow) (base_price lambd : ℚ) : ℚ :=
  round2 (min (max (base_price * (1 + lambd * demandScore row)) 5) 20)

/-- Degrees to radians, `np.radians`. -/
noncomputable def radians (deg : ℝ) : ℝ := deg * (Real.pi / 180)

/-- The notebook's `haversine(lat1, lon1, lat2, lon2)` with Earth radius
`R = 6371` km: `R * 2 * arcsin(sqrt(sin(dphi/2)^2 + cos(phi1)*cos(phi2)*sin(dlambda/2)^2))`. -/
noncomputable def haversine (lat1 lon1 lat2 lon2 : ℝ) : ℝ :=
  6371 * 2 *
    Real.arcsin (Real.sqrt
      (Real.sin (radians (lat2 - lat1) / 2) ^ 2 +
        Real.cos (radians lat1) * Real.cos (radians lat2) *
          Real.sin (radians (lon2 - lon1) / 2) ^ 2))

/-- The dataframe columns a row contributes to `competitive_price`:
its coordinates, its already-computed `DemandPrice`, and the raw
`Occupancy` and `Capacity` the neighbor tuple divides. -/
structure Lot where
  latitude : ℝ
  longitude : ℝ
  demandPrice : ℚ
  occupancy : ℚ
  capacity : ℚ

/-- `row['Occupancy'] / row['Capacity']`, the second component of a
collected neighbor tuple. -/
def occupancyRate (l : Lot) : ℚ := l.occupancy / l.capacity

/-- The neighbor-collection loop of `competitive_price`: iterate the rows
with a running index `i`, skip `i == index`, and keep
`(row['DemandPrice'], row['Occupancy']/row['Capacity'])` for every row
whose haversine distance to `(lat1, lon1)` is `≤ radius`. -/
noncomputable def collectNeighbors (lat1 lon1 radius : ℝ) (index : ℕ) :
    ℕ → List Lot → List (ℚ × ℚ)
  | _, [] => []
  | i, row :: rest =>
    if i = index then collectNeighbors lat1 lon1 radius index (i + 1) rest
    else if haversine lat1 lon1 row.latitude row.longitude ≤ radius then
      (row.demandPrice, occupancyRate row) :: collectNeighbors lat1 lon1 radius index (i + 1) rest
    else collectNeighbors lat1 lon1 radius index (i + 1) rest

/-- `np.mean` of a list of rationals: sum divided by length. -/
def meanQ (l : List ℚ) : ℚ := l.sum / (l.length : ℚ)

/-- The tail of `competitive_price` after the neighbor loop: return the own
price if no neighbors, otherwise nudge by the average neighbor price and
occupancy as the source's if/elif/else chain does. -/
def competitiveDecision (own_price : ℚ) (neighbors : List (ℚ × ℚ)) : ℚ :=
  if neighbors = [] then own_price
  else if meanQ (neighbors.map Prod.snd) > 0.9 ∧ meanQ (neighbors.map Prod.fst) > own_price then
    min (own_price + 1) 20
  else if meanQ (neighbors.map Prod.fst) < own_price then
    max (own_price - 1) 5
  else own_price

/-- `competitive_price(index, df, radius_km=1.0)`: look up the row's own
coordinates and `DemandPrice`, collect the in-radius neighbors over the
whole table, and apply the nudge rule. -/
noncomputable def competitive_price (lots : List Lot) (index : Fin lots.length)
    (radius_km : ℝ) : ℚ :=
  competitiveDecision (lots.get index).demandPrice
    (collectNeighbors (lots.get index).latitude (lots.get index).longitude
      radius_km index.val 0 lots)

/-- The neighbor list `competitive_price` builds for the row at `index`:
the loop run from counter 0 over the whole table, centered at that row's
coordinates. -/
noncomputable def neighborsOf (lots : List Lot) (index : Fin lots.length) (radius_km : ℝ) :
    List (ℚ × ℚ) :=
  collectNeighbors (lots.get index).latitude (lots.get index).longitude
    radius_km index.val 0 lots

/-- The notebook's final assignment
`df['CompetitivePrice'] = [competitive_price(i, df) for i in range(len(df))]`:
every lot's competitive price over the same frozen table. -/
noncomputable def competitiveColumn (lots : List Lot) (radius_km : ℝ) : List ℚ :=
  (List.finRange lots.length).map fun i => competitive_price lots i radius_km

/-- The list comprehension evaluated sequentially, row by row, accumulating
the already-computed competitive prices: the order-sensitive shape the
design notes warn about, made explicit so its result can be compared with
the frozen-snapshot computation. -/
noncomputable def competitiveRowByRowAux (lots : List Lot) (radius_km : ℝ) :
    List (Fin lots.length) → List ℚ → List ℚ
  | [], acc => acc.reverse
  | i :: rest, acc =>
    competitiveRowByRowAux lots radius_km rest (competitive_price lots i radius_km :: acc)

/-- Row-by-row sequential evaluation of the competitive column over the
indices in their table order. -/
noncomputable def competitiveRowByRow (lots : List Lot) (radius_km : ℝ) : List ℚ :=
  competitiveRowByRowAux lots radius_km (List.finRange lots.length) []

/-- Row-by-row evaluation in an arbitrary processing order, tagging each
price with its row index. -/
noncomputable def processInOrder (lots : List Lot) (radius_km : ℝ)
    (order : List (Fin lots.length)) : List (ℕ × ℚ) :=
  order.map fun i => (i.val, competitive_price lots i radius_km)

/-- Modelled from the spec: the per-lot entry of the frozen snapshot the
ComputingCompetitive phase reads — every other lot's same-tick demand price
and occupancy rate, plus its location (spec §4.4, §4.5). -/
structure SnapshotEntry where
  latitude : ℝ
  longitude : ℝ
  demandPrice : ℚ
  occupancyRate : ℚ

/-- The snapshot entry a lot contributes after the ComputingDemand phase. -/
def toSnapshot (l : Lot) : SnapshotEntry :=
  ⟨l.latitude, l.longitude, l.demandPrice, occupancyRate l⟩

/-- Modelled from the spec: neighbor selection over the frozen snapshot —
the other entries (index different from the queried lot's) within
`radius` km by haversine distance (spec §4.3, §4.4 step 1). -/
noncomputable def snapNeighbors (lat1 lon1 radius : ℝ) (index : ℕ) :
    ℕ → List SnapshotEntry → List SnapshotEntry
  | _, [] => []
  | i, e :: rest =>
    if i = index then snapNeighbors lat1 lon1 radius index (i + 1) rest
    else if haversine lat1 lon1 e.latitude e.longitude ≤ radius then
      e :: snapNeighbors lat1 lon1 radius index (i + 1) rest
    else snapNeighbors lat1 lon1 radius index (i + 1) rest

/-- Modelled from the spec: the Competitive policy's decision rule over
frozen snapshot neighbors (spec §4.4 steps 2-6). -/
def specDecision (own_price : ℚ) (ns : List SnapshotEntry) : ℚ :=
  if ns.isEmpty then own_price
  else if meanQ (ns.map SnapshotEntry.occupancyRate) > 0.9 ∧
      meanQ (ns.map SnapshotEntry.demandPrice) > own_price then
    min (own_price + 1) 20
  else if meanQ (ns.map SnapshotEntry.demandPrice) < own_price then
    max (own_price - 1) 5
  else own_price

/-- Modelled from the spec: one lot's competitive price computed entirely
from the frozen snapshot (spec §4.4). -/
noncomputable def specCompetitiveFromSnapshot (snap : List SnapshotEntry)
    (index : Fin snap.length) (radius_km : ℝ) : ℚ :=
  specDecision (snap.get index).demandPrice
    (snapNeighbors (snap.get index).latitude (snap.get index).longitude
      radius_km index.val 0 snap)

/-- Modelled from the spec: the two-phase tick — freeze every lot's
post-ComputingDemand snapshot first, then compute every competitive price
from that immutable snapshot (spec §4.5, §5, §9). -/
noncomputable def twoPhaseTick (lots : List Lot) (radius_km : ℝ) : List ℚ :=
  (List.finRange (lots.map toSnapshot).length).map fun i =>
    specCompetitiveFromSnapshot (lots.map toSnapshot) i radius_km

/-- The competitive nudge rule with the `min(·, 20)` and `max(·, 5)` caps
removed, kept only to state when the caps are binding. -/
def uncappedDecision (own_price : ℚ) (neighbors : List (ℚ × ℚ)) : ℚ :=
  if neighbors = [] then own_price
  else if meanQ (neighbors.map Prod.snd) > 0.9 ∧ meanQ (neighbors.map Prod.fst) > own_price then
    own_price + 1
  else if meanQ (neighbors.map Prod.fst) < own_price then
    own_price - 1
  else own_price

/-- `competitive_price` with the caps removed, kept only to state when the
caps are binding. -/
noncomputable def competitive_price_uncapped (lots : List Lot) (index : Fin lots.length)
    (radius_km : ℝ) : ℚ :=
  uncappedDecision (lots.get index).demandPrice
    (collectNeighbors (lots.get index).latitude (lots.get index).longitude
      radius_km index.val 0 lots)

/-- `demand_based_price` at the default parameters with the `[5, 20]` clamp
removed, kept only to state that the clamp never alters the result. -/
def demandPriceUnclamped (row : DemandRow) : ℚ :=
  round2 (10 * (1 + 0.5 * demandScore row))

/-- Modelled from the spec: a raw reading as it arrives, before validation.
The StreamingEngine and its failure semantics (spec §4.5, §7) have no code
in the repository — the notebook processes one static dataframe — so the
ingestion contract is taken from the spec's words. `none` is a missing
required field; the enum-valued fields carry the raw strings. -/
structure RawReading where
  lotId : ℕ
  occupancy : Option ℚ
  capacity : Option ℚ
  queueLength : Option ℚ
  trafficLevel : Option String
  vehicleType : Option String
  isSpecialDay : Option Bool

/-- The recognized traffic strings, per the preprocessing map; anything
else is an unknown enum value. -/
def parseTraffic (s : String) : Option TrafficLevel :=
  if s = "low" then some TrafficLevel.low
  else if s = "medium" then some TrafficLevel.medium
  else if s = "high" then some TrafficLevel.high
  else none

/-- The recognized vehicle strings, per the preprocessing map. -/
def parseVehicle (s : String) : Option VehicleType :=
  if s = "bike" then some VehicleType.bike
  else if s = "car" then some VehicleType.car
  else if s = "truck" then some VehicleType.truck
  else none

/-- Modelled from the spec: a validated reading (spec §3) — every required
field present, capacity positive, enums recognized. -/
structure ValidReading where
  lotId : ℕ
  occupancy : ℚ
  capacity : ℚ
  queueLength : ℚ
  trafficLevel : TrafficLevel
  vehicleType : VehicleType
  isSpecialDay : Bool

/-- Modelled from the spec: validation of one reading (spec §4.5, §7) —
`none` on any missing field, capacity ≤ 0, or unrecognized enum value;
no field is ever defaulted. -/
def parseReading (r : RawReading) : Option ValidReading :=
  match r.occupancy, r.capacity, r.queueLength, r.trafficLevel, r.vehicleType, r.isSpecialDay with
  | some occ, some cap, some q, some t, some v, some s =>
    match parseTraffic t, parseVehicle v with
    | some tl, some vt =>
      if 0 < cap then some ⟨r.lotId, occ, cap, q, tl, vt, s⟩ else none
    | _, _ => none
  | _, _, _, _, _, _ => none

/-- Modelled from the spec: the per-tick output record (spec §3), carrying
the lot id and its computed price. -/
structure PriceUpdate where
  lotId : ℕ
  linearPrice : ℚ
deriving DecidableEq

/-- The PriceUpdate a validated reading produces. -/
def emitFor (v : ValidReading) : PriceUpdate :=
  ⟨v.lotId, linear_pricing_model v.occupancy v.capacity 10 5⟩

/-- Modelled from the spec: the Emitting phase of one tick (spec §4.5) —
every reading that validates yields a PriceUpdate; a malformed reading is
excluded, and only it. -/
def tickEmissions (batch : List RawReading) : List PriceUpdate :=
  batch.filterMap fun r => (parseReading r).map emitFor

/-- Modelled from the spec: the Ingesting phase's effect on engine state
(spec §4.5) — each valid reading replaces its lot's last known state; a
malformed reading leaves its lot's prior state untouched. -/
def tickState (state : ℕ → Option ValidReading) (batch : List RawReading) :
    ℕ → Option ValidReading :=
  batch.foldl
    (fun st r =>
      match parseReading r with
      | some v => Function.update st v.lotId (some v)
      | none => st)
    state

/-! Helper lemmas about rounding. -/

lemma round_q_mono {x y : ℚ} (h : x ≤ y) : round x ≤ round y := by
  rw [round_eq, round_eq]
  exact Int.floor_mono (by linarith)

lemma round2_le_round2 {x y : ℚ} (h : x ≤ y) : round2 x ≤ round2 y := by
  unfold round2
  have hr : round (x * 100) ≤ round (y * 100) := round_q_mono (by linarith)
  have : ((round (x * 100) : ℤ) : ℚ) ≤ ((round (y * 100) : ℤ) : ℚ) := by exact_mod_cast hr
  linarith

lemma round2_intCast (n : ℤ) : round2 ((n : ℚ)) = n := by
  unfold round2
  have : ((n : ℚ)) * 100 = ((n * 100 : ℤ) : ℚ) := by push_cast; ring
  rw [this, round_intCast]
  push_cast
  ring

lemma round2_bounds {m n : ℤ} {q : ℚ} (h1 : (m : ℚ) ≤ q) (h2 : q ≤ (n : ℚ)) :
    (m : ℚ) ≤ round2 q ∧ round2 q ≤ (n : ℚ) := by
  constructor
  · calc (m : ℚ) = round2 ((m : ℚ)) := (round2_intCast m).symm
    _ ≤ round2 q := round2_le_round2 h1
  · calc round2 q ≤ round2 ((n : ℚ)) := round2_le_round2 h2
    _ = (n : ℚ) := round2_intCast n

/-! Helper lemmas about the neighbor-collection loop. -/

lemma mem_collectNeighbors {lat1 lon1 radius : ℝ} {index : ℕ} :
    ∀ (rows : List Lot) (n : ℕ) (p : ℚ × ℚ),
      p ∈ collectNeighbors lat1 lon1 radius index n rows ↔
        ∃ j, ∃ h : j < rows.length, n + j ≠ index ∧
          haversine lat1 lon1 (rows.get ⟨j, h⟩).latitude (rows.get ⟨j, h⟩).longitude ≤ radius ∧
          p = ((rows.get ⟨j, h⟩).demandPrice, occupancyRate (rows.get ⟨j, h⟩)) := by
  intro rows
  induction rows with
  | nil =>
    intro n p
    simp [collectNeighbors]
  | cons row rest ih =>
    intro n p
    rw [collectNeighbors]
    by_cases hn : n = index
    · rw [if_pos hn, ih]
      constructor
      · rintro ⟨j, hj, hj1, hj2, hj3⟩
        exact ⟨j + 1, by simpa using hj, by omega, hj2, hj3⟩
      · rintro ⟨j, hj, hj1, hj2, hj3⟩
        rcases j with _ | j0
        · omega
        · exact ⟨j0, by simpa using hj, by omega, hj2, hj3⟩
    · rw [if_neg hn]
      by_cases hd : haversine lat1 lon1 row.latitude row.longitude ≤ radius
      · rw [if_pos hd]
        simp only [List.mem_cons, ih]
        constructor
        · rintro (rfl | ⟨j, hj, hj1, hj2, hj3⟩)
          · exact ⟨0, by simp, by omega, hd, rfl⟩
          · exact ⟨j + 1, by simpa using hj, by omega, hj2, hj3⟩
        · rintro ⟨j, hj, hj1, hj2, hj3⟩
          rcases j with _ | j0
          · exact Or.inl hj3
          · exact Or.inr ⟨j0, by simpa using hj, by omega, hj2, hj3⟩
      · rw [if_neg hd, ih]
        constructor
        · rintro ⟨j, hj, hj1, hj2, hj3⟩
          exact ⟨j + 1, by simpa using hj, by omega, hj2, hj3⟩
        · rintro ⟨j, hj, hj1, hj2, hj3⟩
          rcases j with _ | j0
          · exact absurd hj2 hd
          · exact ⟨j0, by simpa using hj, by omega, hj2, hj3⟩

lemma collectNeighbors_eq_nil {lat1 lon1 radius : ℝ} {index : ℕ} {rows : List Lot}
    (h : ∀ j, ∀ hj : j < rows.length, j ≠ index →
      ¬ haversine lat1 lon1 (rows.get ⟨j, hj⟩).latitude (rows.get ⟨j, hj⟩).longitude ≤ radius) :
    collectNeighbors lat1 lon1 radius index 0 rows = [] := by
  rw [List.eq_nil_iff_forall_not_mem]
  intro p hp
  rw [mem_collectNeighbors] at hp
  obtain ⟨j, hj, hj1, hj2, _⟩ := hp
  exact h j hj (by omega) hj2

/-! Helper lemmas about the nudge decision. -/

lemma competitiveDecision_abs_le {own : ℚ} (ns : List (ℚ × ℚ))
    (h5 : 5 ≤ own) (h20 : own ≤ 20) :
    |competitiveDecision own ns - own| ≤ 1 := by
  unfold competitiveDecision
  split_ifs with h1 h2 h3
  · simp
  · rcases min_cases (own + 1) 20 with ⟨he, hc⟩ | ⟨he, hc⟩ <;>
      rw [he, abs_le] <;> constructor <;> linarith
  · rcases max_cases (own - 1) 5 with ⟨he, hc⟩ | ⟨he, hc⟩ <;>
      rw [he, abs_le] <;> constructor <;> linarith
  · simp

lemma competitiveDecision_mem_Icc {own : ℚ} (ns : List (ℚ × ℚ))
    (h5 : 5 ≤ own) (h20 : own ≤ 20) :
    5 ≤ competitiveDecision own ns ∧ competitiveDecision own ns ≤ 20 := by
  unfold competitiveDecision
  split_ifs with h1 h2 h3
  · exact ⟨h5, h20⟩
  · rcases min_cases (own + 1) 20 with ⟨he, hc⟩ | ⟨he, hc⟩ <;>
      rw [he] <;> constructor <;> linarith
  · rcases max_cases (own - 1) 5 with ⟨he, hc⟩ | ⟨he, hc⟩ <;>
      rw [he] <;> constructor <;> linarith
  · exact ⟨h5, h20⟩

lemma competitiveDecision_eq_uncapped {own : ℚ} (ns : List (ℚ × ℚ))
    (h10 : 10 ≤ own) (h15 : own ≤ 15) :
    competitiveDecision own ns = uncappedDecision own ns := by
  unfold competitiveDecision uncappedDecision
  split_ifs
  · rfl
  · exact min_eq_left (by linarith)
  · exact max_eq_left (by linarith)
  · rfl

/-! Helper lemmas about the demand score and price. -/

lemma demandScore_mem (row : DemandRow) : 0 ≤ demandScore row ∧ demandScore row ≤ 1 := by
  unfold demandScore
  constructor
  · exact le_min (le_max_right _ 0) zero_le_one
  · exact min_le_right _ 1

lemma demand_based_price_mem (row : DemandRow) (base_price lambd : ℚ) :
    5 ≤ demand_based_price row base_price lambd ∧ demand_based_price row base_price lambd ≤ 20 := by
  unfold demand_based_price
  have h5 : (5 : ℚ) ≤ min (max (base_price * (1 + lambd * demandScore row)) 5) 20 :=
    le_min (le_max_right _ 5) (by norm_num)
  have h20 : min (max (base_price * (1 + lambd * demandScore row)) 5) 20 ≤ 20 :=
    min_le_right _ 20
  have := round2_bounds (m := 5) (n := 20) (by exact_mod_cast h5) (by exact_mod_cast h20)
  exact ⟨by exact_mod_cast this.1, by exact_mod_cast this.2⟩

lemma demand_based_price_default_mem (row : DemandRow) :
    10 ≤ demand_based_price row 10 0.5 ∧ demand_based_price row 10 0.5 ≤ 15 := by
  unfold demand_based_price
  obtain ⟨hd0, hd1⟩ := demandScore_mem row
  have hx10 : (10 : ℚ) ≤ 10 * (1 + 0.5 * demandScore row) := by linarith
  have hx15 : 10 * (1 + 0.5 * demandScore row) ≤ 15 := by linarith
  have hmax : max (10 * (1 + 0.5 * demandScore row)) 5 = 10 * (1 + 0.5 * demandScore row) :=
    max_eq_left (by linarith)
  have hmin : min (10 * (1 + 0.5 * demandScore row)) 20 = 10 * (1 + 0.5 * demandScore row) :=
    min_eq_left (by linarith)
  rw [hmax, hmin]
  have := round2_bounds (m := 10) (n := 15) (by exact_mod_cast hx10) (by exact_mod_cast hx15)
  exact ⟨by exact_mod_cast this.1, by exact_mod_cast this.2⟩

lemma demand_based_price_default_unclamped (row : DemandRow) :
    demand_based_price row 10 0.5 = demandPriceUnclamped row := by
  unfold demand_based_price demandPriceUnclamped
  obtain ⟨hd0, hd1⟩ := demandScore_mem row
  have hmax : max (10 * (1 + 0.5 * demandScore row)) 5 = 10 * (1 + 0.5 * demandScore row) :=
    max_eq_left (by linarith)
  have hmin : min (10 * (1 + 0.5 * demandScore row)) 20 = 10 * (1 + 0.5 * demandScore row) :=
    min_eq_left (by linarith)
  rw [hmax, hmin]

/-! Helper lemmas about the haversine distance. -/

lemma radians_sub_swap (a b : ℝ) : radians (a - b) = -radians (b - a) := by
  unfold radians
  ring

lemma haversine_comm (lat1 lon1 lat2 lon2 : ℝ) :
    haversine lat1 lon1 lat2 lon2 = haversine lat2 lon2 lat1 lon1 := by
  unfold haversine
  rw [radians_sub_swap lat1 lat2, radians_sub_swap lon1 lon2, neg_div, neg_div,
    Real.sin_neg, Real.sin_neg, neg_sq, neg_sq]
  ring_nf

lemma haversine_self (lat lon : ℝ) : haversine lat lon lat lon = 0 := by
  unfold haversine
  simp [radians, Real.sqrt_zero, Real.arcsin_zero]

/-! Helper lemmas relating the row-by-row computation, the comprehension
column and the two-phase snapshot computation. -/

lemma competitiveRowByRowAux_eq (lots : List Lot) (radius_km : ℝ) :
    ∀ (is : List (Fin lots.length)) (acc : List ℚ),
      competitiveRowByRowAux lots radius_km is acc =
        acc.reverse ++ is.map fun i => competitive_price lots i radius_km := by
  intro is
  induction is with
  | nil => intro acc; simp [competitiveRowByRowAux]
  | cons i rest ih =>
    intro acc
    rw [competitiveRowByRowAux, ih]
    simp

lemma competitiveRowByRow_eq_column (lots : List Lot) (radius_km : ℝ) :
    competitiveRowByRow lots radius_km = competitiveColumn lots radius_km := by
  unfold competitiveRowByRow competitiveColumn
  rw [competitiveRowByRowAux_eq]
  simp

lemma collectNeighbors_toSnapshot (lat1 lon1 radius : ℝ) (index : ℕ) :
    ∀ (rows : List Lot) (n : ℕ),
      collectNeighbors lat1 lon1 radius index n rows =
        (snapNeighbors lat1 lon1 radius index n (rows.map toSnapshot)).map
          fun e => (e.demandPrice, e.occupancyRate) := by
  intro rows
  induction rows with
  | nil => intro n; simp [collectNeighbors, snapNeighbors]
  | cons row rest ih =>
    intro n
    rw [collectNeighbors, List.map_cons, snapNeighbors]
    by_cases hn : n = index
    · rw [if_pos hn, if_pos hn, ih]
    · rw [if_neg hn, if_neg hn]
      by_cases hd : haversine lat1 lon1 row.latitude row.longitude ≤ radius
      · rw [if_pos hd, if_pos (by simpa [toSnapshot] using hd), List.map_cons, ih]
        rfl
      · rw [if_neg hd, if_neg (by simpa [toSnapshot] using hd), ih]

lemma competitiveDecision_eq_spec (own : ℚ) (ns : List SnapshotEntry) :
    competitiveDecision own (ns.map fun e => (e.demandPrice, e.occupancyRate)) =
      specDecision own ns := by
  by_cases hns : ns = []
  · subst hns
    simp [competitiveDecision, specDecision]
  · unfold competitiveDecision specDecision
    rw [if_neg
        (show ¬(ns.map (fun e : SnapshotEntry => (e.demandPrice, e.occupancyRate)) = []) from by
          simpa using hns)]
    rw [if_neg (show ¬(ns.isEmpty = true) from by simpa [List.isEmpty_iff] using hns)]
    simp only [List.map_map]
    rfl

lemma competitive_price_eq_spec (lots : List Lot) (i : Fin lots.length) (radius_km : ℝ) :
    competitive_price lots i radius_km =
      specCompetitiveFromSnapshot (lots.map toSnapshot)
        ⟨i.val, by simpa using i.isLt⟩ radius_km := by
  unfold competitive_price specCompetitiveFromSnapshot
  simp only [List.get_eq_getElem, List.getElem_map]
  rw [collectNeighbors_toSnapshot]
  rw [competitiveDecision_eq_spec]
  rfl

lemma competitiveColumn_eq_twoPhase (lots : List Lot) (radius_km : ℝ) :
    competitiveColumn lots radius_km = twoPhaseTick lots radius_km := by
  unfold competitiveColumn twoPhaseTick
  apply List.ext_getElem
  · simp
  · intro k h1 h2
    simp only [List.getElem_map, List.getElem_finRange]
    exact competitive_price_eq_spec lots _ radius_km

lemma competitiveColumn_congr {lots1 lots2 : List Lot}
    (h : lots1.map toSnapshot = lots2.map toSnapshot) (radius_km : ℝ) :
    competitiveColumn lots1 radius_km = competitiveColumn lots2 radius_km := by
  rw [competitiveColumn_eq_twoPhase, competitiveColumn_eq_twoPhase]
  unfold twoPhaseTick
  rw [h]

/-! Helper lemmas about the modelled tick (validation, isolation, emission). -/

lemma parseReading_lotId {r : RawReading} {v : ValidReading}
    (h : parseReading r = some v) : v.lotId = r.lotId := by
  unfold parseReading at h
  split at h
  · split at h
    · split at h
      · cases h
        rfl
      · exact absurd h (by simp)
    · exact absurd h (by simp)
  · exact absurd h (by simp)

lemma tickState_cons (state : ℕ → Option ValidReading) (r : RawReading)
    (rest : List RawReading) :
    tickState state (r :: rest) =
      tickState
        (match parseReading r with
          | some v => Function.update state v.lotId (some v)
          | none => state)
        rest := by
  rfl

lemma tickState_eq_of_malformed :
    ∀ (batch : List RawReading) (state : ℕ → Option ValidReading) (y : ℕ),
      (∀ r ∈ batch, r.lotId = y → parseReading r = none) →
      tickState state batch y = state y := by
  intro batch
  induction batch with
  | nil =>
    intro state y h
    rfl
  | cons r rest ih =>
    intro state y h
    rw [tickState_cons]
    rcases hp : parseReading r with _ | v
    · exact ih state y fun s hs hy => h s (List.mem_cons_of_mem r hs) hy
    · rw [ih _ y (fun s hs hy => h s (List.mem_cons_of_mem r hs) hy)]
      have hne : v.lotId ≠ y := by
        intro he
        have hr : r.lotId = y := (parseReading_lotId hp) ▸ he
        rw [h r (List.mem_cons_self r rest) hr] at hp
        exact Option.noConfusion hp
      exact Function.update_noteq (fun he => hne he.symm) (some v) state

lemma mem_tickEmissions {batch : List RawReading} {u : PriceUpdate} :
    u ∈ tickEmissions batch ↔ ∃ r ∈ batch, ∃ v, parseReading r = some v ∧ u = emitFor v := by
  unfold tickEmissions
  rw [List.mem_filterMap]
  constructor
  · rintro ⟨r, hr, hu⟩
    rcases Option.map_eq_some'.mp hu with ⟨v, hv, he⟩
    exact ⟨r, hr, v, hv, he.symm⟩
  · rintro ⟨r, hr, v, hv, he⟩
    exact ⟨r, hr, by rw [hv, he]; rfl⟩

lemma tickEmissions_length :
    ∀ batch : List RawReading,
      (tickEmissions batch).length =
        (batch.filter fun r => (parseReading r).isSome).length := by
  intro batch
  induction batch with
  | nil => rfl
  | cons r rest ih =>
    unfold tickEmissions at *
    rcases hp : parseReading r with _ | v <;>
      simp [List.filterMap_cons, List.filter_cons, hp, ih]

lemma length_filter_add_length_filter_not (p : RawReading → Bool) :
    ∀ batch : List RawReading,
      (batch.filter p).length + (batch.filter fun r => !(p r)).length = batch.length := by
  intro batch
  induction batch with
  | nil => rfl
  | cons r rest ih =>
    rcases hp : p r with _ | _ <;> simp [List.filter_cons, hp] <;> omega

/-! The claims. -/

/-- C1: each lot's competitive price is a function only of the same-tick
demand-price/occupancy snapshot: the row-by-row computation over the frozen
demand-price table equals the two-phase frozen-snapshot computation, the
processed results do not depend on the order in which lots are processed
(permuting the processing order only permutes the tagged result list), and
two tables with the same snapshot projection get the same competitive
column. -/
theorem claim_C1_two_phase_equivalence (lots : List Lot) :
    competitiveRowByRow lots 1 = twoPhaseTick lots 1 ∧
    (∀ order1 order2 : List (Fin lots.length), order1.Perm order2 →
      (processInOrder lots 1 order1).Perm (processInOrder lots 1 order2)) ∧
    (∀ lots2 : List Lot, lots.map toSnapshot = lots2.map toSnapshot →
      competitiveColumn lots 1 = competitiveColumn lots2 1) := by
  refine ⟨?_, ?_, ?_⟩
  · rw [competitiveRowByRow_eq_column, competitiveColumn_eq_twoPhase]
  · intro o1 o2 h
    exact h.map _
  · intro lots2 h
    exact competitiveColumn_congr h 1

/-- C1 witness: the two-phase equality, order independence and snapshot
congruence applied to a concrete one-lot table. -/
theorem claim_C1_witness :
    competitiveRowByRow ([⟨0, 0, 12, 50, 100⟩] : List Lot) 1 =
      twoPhaseTick ([⟨0, 0, 12, 50, 100⟩] : List Lot) 1 ∧
    competitiveColumn ([⟨0, 0, 12, 50, 100⟩] : List Lot) 1 =
      competitiveColumn ([⟨0, 0, 12, 50, 100⟩] : List Lot) 1 := by
  refine ⟨(claim_C1_two_phase_equivalence [⟨0, 0, 12, 50, 100⟩]).1, ?_⟩
  exact (claim_C1_two_phase_equivalence [⟨0, 0, 12, 50, 100⟩]).2.2 _ rfl

/-- C3: the demand price is exactly
`round2(min(max(base*(1 + lambda*demand), 5), 20))` with `demand` the
0.4/0.3/0.1/0.1/0.1-weighted sum clamped to `[0, 1]`, traffic medium encodes
to 1 and car to 1.0, and the spec's scenario row prices at 11.88. -/
theorem claim_C3_demand_price_formula :
    (∀ row : DemandRow,
      demand_based_price row 10 0.5 =
        round2 (min (max (10 * (1 + 0.5 *
          (min (max (0.4 * row.normalizedOccupancyRate +
            0.3 * row.normalizedQueueLength +
            0.1 * row.trafficConditionEncoded / 2 +
            0.1 * row.vehicleTypeEncoded / 1.5 +
            0.1 * row.isSpecialDay) 0) 1))) 5) 20)) ∧
    encodeTraffic TrafficLevel.medium = 1 ∧
    encodeVehicle VehicleType.car = 1 ∧
    demand_based_price
      ⟨0.5, 0.2, encodeTraffic TrafficLevel.medium, encodeVehicle VehicleType.car, 0⟩
      10 0.5 = 11.88 := by
  refine ⟨fun row => rfl, rfl, rfl, ?_⟩
  norm_num [demand_based_price, demandScore, encodeTraffic, encodeVehicle, round2, round_eq]

/-- C5: the competitive nudge never moves a lot more than 1.0 away from its
own same-tick demand price. -/
theorem claim_C5_bounded_nudge (lots : List Lot) (i : Fin lots.length)
    (h5 : 5 ≤ (lots.get i).demandPrice) (h20 : (lots.get i).demandPrice ≤ 20) :
    |competitive_price lots i 1 - (lots.get i).demandPrice| ≤ 1 :=
  competitiveDecision_abs_le _ h5 h20

/-- C5 witness: the bound at a concrete one-lot table with demand price 12. -/
theorem claim_C5_witness :
    |competitive_price ([⟨0, 0, 12, 50, 100⟩] : List Lot) ⟨0, by norm_num⟩ 1 -
      (List.get ([⟨0, 0, 12, 50, 100⟩] : List Lot) ⟨0, by norm_num⟩).demandPrice| ≤ 1 :=
  claim_C5_bounded_nudge [⟨0, 0, 12, 50, 100⟩] ⟨0, by norm_num⟩
    (by norm_num) (by norm_num)

/-- C6: the linear price is `round2(base + alpha*(occupancy/capacity))`
with no clamping, and the spec's scenario (occupancy 50, capacity 100,
defaults) prices at 12.50. -/
theorem claim_C6_linear_formula :
    (∀ occupancy capacity base_price alpha : ℚ, 0 < capacity →
      linear_pricing_model occupancy capacity base_price alpha =
        round2 (base_price + alpha * (occupancy / capacity))) ∧
    linear_pricing_model 50 100 10 5 = 12.5 := by
  refine ⟨fun _ _ _ _ _ => rfl, ?_⟩
  norm_num [linear_pricing_model, round2, round_eq]

/-- C7: the linear model raises a division error (embedded as `none`) at
capacity 0 and succeeds, returning its rounded price, for every positive
capacity. -/
theorem claim_C7_division_error :
    (∀ occupancy base_price alpha : ℚ,
      linear_pricing_model_checked occupancy 0 base_price alpha = none) ∧
    (∀ occupancy capacity base_price alpha : ℚ, 0 < capacity →
      linear_pricing_model_checked occupancy capacity base_price alpha =
        some (linear_pricing_model occupancy capacity base_price alpha)) := by
  constructor
  · intro occupancy base_price alpha
    simp [linear_pricing_model_checked]
  · intro occupancy capacity base_price alpha h
    exact if_neg (ne_of_gt h)

/-- C10: with the default parameters the demand price always lies in
`[10, 15]`, so the `[5, 20]` clamp in the demand model never alters the
result, and for any lot whose demand price is in `[10, 15]` the competitive
caps `min(·, 20)` and `max(·, 5)` are never binding. -/
theorem claim_C10_clamps_never_bind :
    (∀ row : DemandRow,
      10 ≤ demand_based_price row 10 0.5 ∧ demand_based_price row 10 0.5 ≤ 15) ∧
    (∀ row : DemandRow, demand_based_price row 10 0.5 = demandPriceUnclamped row) ∧
    (∀ (lots : List Lot) (i : Fin lots.length),
      10 ≤ (lots.get i).demandPrice → (lots.get i).demandPrice ≤ 15 →
      competitive_price lots i 1 = competitive_price_uncapped lots i 1) :=
  ⟨demand_based_price_default_mem, demand_based_price_default_unclamped,
    fun _ _ h10 h15 => competitiveDecision_eq_uncapped _ h10 h15⟩

/-- C10 witness: the cap-free equality at a concrete one-lot table with
demand price 12. -/
theorem claim_C10_witness :
    competitive_price ([⟨0, 0, 12, 50, 100⟩] : List Lot) ⟨0, by norm_num⟩ 1 =
      competitive_price_uncapped ([⟨0, 0, 12, 50, 100⟩] : List Lot) ⟨0, by norm_num⟩ 1 :=
  claim_C10_clamps_never_bind.2.2 [⟨0, 0, 12, 50, 100⟩] ⟨0, by norm_num⟩
    (by norm_num) (by norm_num)

/-- C4: demand prices always land in `[5, 20]`; a competitive price over a
table whose demand prices are all in `[5, 20]` stays in `[5, 20]`; the
linear model alone is unbounded — it exceeds any bound at some positive
capacity. -/
theorem claim_C4_price_bounds :
    (∀ (row : DemandRow) (base_price lambd : ℚ),
      5 ≤ demand_based_price row base_price lambd ∧
        demand_based_price row base_price lambd ≤ 20) ∧
    (∀ (lots : List Lot) (i : Fin lots.length),
      (∀ l ∈ lots, 5 ≤ l.demandPrice ∧ l.demandPrice ≤ 20) →
      5 ≤ competitive_price lots i 1 ∧ competitive_price lots i 1 ≤ 20) ∧
    (∀ B : ℚ, ∃ occupancy capacity : ℚ,
      0 < capacity ∧ B < linear_pricing_model occupancy capacity 10 5) := by
  refine ⟨demand_based_price_mem, ?_, ?_⟩
  · intro lots i h
    have hm := h (lots.get i) (List.get_mem lots i.val i.isLt)
    exact competitiveDecision_mem_Icc _ hm.1 hm.2
  · intro B
    refine ⟨((⌈B⌉₊ : ℕ) : ℚ), 1, one_pos, ?_⟩
    have hle : B ≤ ((⌈B⌉₊ : ℕ) : ℚ) := Nat.le_ceil B
    have hnn : (0 : ℚ) ≤ ((⌈B⌉₊ : ℕ) : ℚ) := by positivity
    have hval : linear_pricing_model ((⌈B⌉₊ : ℕ) : ℚ) 1 10 5 =
        ((10 + 5 * (⌈B⌉₊ : ℕ) : ℤ) : ℚ) := by
      unfold linear_pricing_model
      rw [div_one]
      rw [show (10 : ℚ) + 5 * ((⌈B⌉₊ : ℕ) : ℚ) = ((10 + 5 * (⌈B⌉₊ : ℕ) : ℤ) : ℚ) by
        push_cast; ring]
      exact round2_intCast _
    rw [hval]
    push_cast
    linarith

/-- C4 witness: the competitive bound applied to a concrete one-lot table
with demand price 12, and the unboundedness of the linear model at B = 100. -/
theorem claim_C4_witness :
    (5 ≤ competitive_price ([⟨0, 0, 12, 50, 100⟩] : List Lot) ⟨0, by norm_num⟩ 1 ∧
      competitive_price ([⟨0, 0, 12, 50, 100⟩] : List Lot) ⟨0, by norm_num⟩ 1 ≤ 20) ∧
    (∃ occupancy capacity : ℚ,
      0 < capacity ∧ 100 < linear_pricing_model occupancy capacity 10 5) :=
  ⟨claim_C4_price_bounds.2.1 [⟨0, 0, 12, 50, 100⟩] ⟨0, by norm_num⟩
      (by intro l hl; rw [List.mem_singleton] at hl; subst hl; norm_num),
    claim_C4_price_bounds.2.2 100⟩

/-- C9: the haversine distance is symmetric and zero on the diagonal, and
the neighbor loop selects exactly the rows at a different index whose
distance to the queried point is at most the radius. -/
theorem claim_C9_haversine_geometry :
    (∀ lat1 lon1 lat2 lon2 : ℝ,
      haversine lat1 lon1 lat2 lon2 = haversine lat2 lon2 lat1 lon1) ∧
    (∀ lat lon : ℝ, haversine lat lon lat lon = 0) ∧
    (∀ (lat1 lon1 radius : ℝ) (index : ℕ) (rows : List Lot) (p : ℚ × ℚ),
      p ∈ collectNeighbors lat1 lon1 radius index 0 rows ↔
        ∃ j, ∃ hj : j < rows.length, j ≠ index ∧
          haversine lat1 lon1 (rows.get ⟨j, hj⟩).latitude (rows.get ⟨j, hj⟩).longitude ≤ radius ∧
          p = ((rows.get ⟨j, hj⟩).demandPrice, occupancyRate (rows.get ⟨j, hj⟩))) := by
  refine ⟨haversine_comm, haversine_self, ?_⟩
  intro lat1 lon1 radius index rows p
  rw [mem_collectNeighbors]
  constructor
  · rintro ⟨j, hj, h1, h2, h3⟩
    exact ⟨j, hj, by omega, h2, h3⟩
  · rintro ⟨j, hj, h1, h2, h3⟩
    exact ⟨j, hj, by omega, h2, h3⟩

/-- C2: the competitive price follows the spec's decision rule — own demand
price when nothing is in radius, `min(own+1, 20)` when the neighbor mean
occupancy exceeds 0.9 and the mean price exceeds the own price,
`max(own-1, 5)` when the mean price is below the own price, the own price
otherwise — and the two scenario lots (demand 12 with an in-radius neighbor
at demand 15 / occupancy 0.95, resp. demand 10) price at 13 and 11. -/
theorem claim_C2_decision_rule :
    (∀ (lots : List Lot) (i : Fin lots.length),
      (∀ j, ∀ hj : j < lots.length, j ≠ i.val →
        ¬ haversine (lots.get i).latitude (lots.get i).longitude
            (lots.get ⟨j, hj⟩).latitude (lots.get ⟨j, hj⟩).longitude ≤ 1) →
      competitive_price lots i 1 = (lots.get i).demandPrice) ∧
    (∀ (lots : List Lot) (i : Fin lots.length),
      neighborsOf lots i 1 ≠ [] →
      meanQ ((neighborsOf lots i 1).map Prod.snd) > 0.9 →
      meanQ ((neighborsOf lots i 1).map Prod.fst) > (lots.get i).demandPrice →
      competitive_price lots i 1 = min ((lots.get i).demandPrice + 1) 20) ∧
    (∀ (lots : List Lot) (i : Fin lots.length),
      neighborsOf lots i 1 ≠ [] →
      meanQ ((neighborsOf lots i 1).map Prod.fst) < (lots.get i).demandPrice →
      competitive_price lots i 1 = max ((lots.get i).demandPrice - 1) 5) ∧
    (∀ (lots : List Lot) (i : Fin lots.length),
      neighborsOf lots i 1 ≠ [] →
      ¬ (meanQ ((neighborsOf lots i 1).map Prod.snd) > 0.9 ∧
        meanQ ((neighborsOf lots i 1).map Prod.fst) > (lots.get i).demandPrice) →
      ¬ meanQ ((neighborsOf lots i 1).map Prod.fst) < (lots.get i).demandPrice →
      competitive_price lots i 1 = (lots.get i).demandPrice) ∧
    (∀ (lat1 lon1 lat2 lon2 : ℝ) (occ cap : ℚ),
      haversine lat1 lon1 lat2 lon2 ≤ 1 →
      competitive_price
        ([⟨lat1, lon1, 12, occ, cap⟩, ⟨lat2, lon2, 15, 95, 100⟩] : List Lot)
        ⟨0, by norm_num⟩ 1 = 13) ∧
    (∀ (lat1 lon1 lat2 lon2 : ℝ) (occ cap : ℚ),
      haversine lat1 lon1 lat2 lon2 ≤ 1 →
      competitive_price
        ([⟨lat1, lon1, 12, occ, cap⟩, ⟨lat2, lon2, 10, 95, 100⟩] : List Lot)
        ⟨0, by norm_num⟩ 1 = 11) := by
  refine ⟨?_, ?_, ?_, ?_, ?_, ?_⟩
  · intro lots i h
    unfold competitive_price
    rw [collectNeighbors_eq_nil h]
    rfl
  · intro lots i hne hocc hpr
    unfold competitive_price
    unfold neighborsOf at hne hocc hpr
    unfold competitiveDecision
    rw [if_neg hne, if_pos ⟨hocc, hpr⟩]
  · intro lots i hne hpr
    unfold competitive_price
    unfold neighborsOf at hne hpr
    unfold competitiveDecision
    rw [if_neg hne, if_neg ?hc, if_pos hpr]
    case hc =>
      rintro ⟨-, hgt⟩
      exact absurd hpr (not_lt.mpr (le_of_lt hgt))
  · intro lots i hne hnot hnlt
    unfold competitive_price
    unfold neighborsOf at hne hnot hnlt
    unfold competitiveDecision
    rw [if_neg hne, if_neg hnot, if_neg hnlt]
  · intro lat1 lon1 lat2 lon2 occ cap hd
    unfold competitive_price
    show competitiveDecision (12 : ℚ)
      (collectNeighbors lat1 lon1 1 0 0
        [⟨lat1, lon1, 12, occ, cap⟩, ⟨lat2, lon2, 15, 95, 100⟩]) = 13
    rw [collectNeighbors, if_pos rfl, collectNeighbors, if_neg (by norm_num), if_pos hd,
      collectNeighbors]
    norm_num [competitiveDecision, meanQ, occupancyRate]
  · intro lat1 lon1 lat2 lon2 occ cap hd
    unfold competitive_price
    show competitiveDecision (12 : ℚ)
      (collectNeighbors lat1 lon1 1 0 0
        [⟨lat1, lon1, 12, occ, cap⟩, ⟨lat2, lon2, 10, 95, 100⟩]) = 11
    rw [collectNeighbors, if_pos rfl, collectNeighbors, if_neg (by norm_num), if_pos hd,
      collectNeighbors]
    norm_num [competitiveDecision, meanQ, occupancyRate]

/-- C2 witness: both scenarios evaluated at concrete coincident coordinates,
where the haversine distance is 0 ≤ 1. -/
theorem claim_C2_witness :
    competitive_price ([⟨0, 0, 12, 50, 100⟩, ⟨0, 0, 15, 95, 100⟩] : List Lot)
      ⟨0, by norm_num⟩ 1 = 13 ∧
    competitive_price ([⟨0, 0, 12, 50, 100⟩, ⟨0, 0, 10, 95, 100⟩] : List Lot)
      ⟨0, by norm_num⟩ 1 = 11 :=
  ⟨claim_C2_decision_rule.2.2.2.2.1 0 0 0 0 50 100 (by rw [haversine_self]; norm_num),
    claim_C2_decision_rule.2.2.2.2.2 0 0 0 0 50 100 (by rw [haversine_self]; norm_num)⟩

/-- C8: per-tick failure isolation — a malformed reading for a lot leaves
that lot's prior state untouched and yields no PriceUpdate for it, every
valid reading in the batch still yields its PriceUpdate, one malformed
reading in a batch of 5 still yields the other 4 updates, and validation
never substitutes a default: a missing field, non-positive capacity or
unrecognized enum always rejects the reading. -/
theorem claim_C8_partial_failure_isolation :
    (∀ (state : ℕ → Option ValidReading) (batch : List RawReading) (y : ℕ),
      (∀ r ∈ batch, r.lotId = y → parseReading r = none) →
      tickState state batch y = state y ∧ ∀ u ∈ tickEmissions batch, u.lotId ≠ y) ∧
    (∀ (batch : List RawReading) (r : RawReading) (v : ValidReading),
      r ∈ batch → parseReading r = some v → emitFor v ∈ tickEmissions batch) ∧
    (∀ batch : List RawReading, batch.length = 5 →
      (batch.filter fun r => (parseReading r).isNone).length = 1 →
      (tickEmissions batch).length = 4) ∧
    (∀ (id : ℕ) (occ cap q : Option ℚ) (t vh : Option String) (s : Option Bool),
      parseReading ⟨id, none, cap, q, t, vh, s⟩ = none ∧
      parseReading ⟨id, occ, none, q, t, vh, s⟩ = none ∧
      parseReading ⟨id, occ, cap, none, t, vh, s⟩ = none ∧
      parseReading ⟨id, occ, cap, q, none, vh, s⟩ = none ∧
      parseReading ⟨id, occ, cap, q, t, none, s⟩ = none ∧
      parseReading ⟨id, occ, cap, q, t, vh, none⟩ = none) ∧
    (∀ (r : RawReading) (c : ℚ), r.capacity = some c → c ≤ 0 → parseReading r = none) ∧
    (∀ (r : RawReading) (t : String), r.trafficLevel = some t →
      parseTraffic t = none → parseReading r = none) ∧
    (∀ (r : RawReading) (t : String), r.vehicleType = some t →
      parseVehicle t = none → parseReading r = none) := by
  refine ⟨?_, ?_, ?_, ?_, ?_, ?_, ?_⟩
  · intro state batch y h
    refine ⟨tickState_eq_of_malformed batch state y h, ?_⟩
    intro u hu
    rcases mem_tickEmissions.mp hu with ⟨r, hr, v, hv, he⟩
    intro hy
    have : r.lotId = y := by
      rw [← parseReading_lotId hv, ← hy, he]
      rfl
    rw [h r hr this] at hv
    exact Option.noConfusion hv
  · intro batch r v hr hv
    exact mem_tickEmissions.mpr ⟨r, hr, v, hv, rfl⟩
  · intro batch h5 h1
    rw [tickEmissions_length]
    have hpart := length_filter_add_length_filter_not (fun r => (parseReading r).isNone) batch
    have hfe : (batch.filter fun r => !(parseReading r).isNone) =
        batch.filter fun r => (parseReading r).isSome := by
      apply List.filter_congr
      intro r _
      cases parseReading r <;> rfl
    rw [hfe] at hpart
    omega
  · intro id occ cap q t vh s
    refine ⟨rfl, ?_, ?_, ?_, ?_, ?_⟩
    · cases occ <;> rfl
    · cases occ <;> cases cap <;> rfl
    · cases occ <;> cases cap <;> cases q <;> rfl
    · cases occ <;> cases cap <;> cases q <;> cases t <;> rfl
    · cases occ <;> cases cap <;> cases q <;> cases t <;> cases vh <;> rfl
  · rintro ⟨id, occ, cap, q, t, vh, s⟩ c hc hle
    cases hc
    cases occ <;> cases q <;> cases t <;> cases vh <;> cases s <;>
      try rfl
    all_goals
      unfold parseReading
      dsimp only
      rcases parseTraffic _ with _ | tl <;> rcases parseVehicle _ with _ | vt <;>
        simp [not_lt.mpr hle]
  · rintro ⟨id, occ, cap, q, t, vh, s⟩ ts ht hbad
    cases ht
    cases occ <;> cases cap <;> cases q <;> cases vh <;> cases s
    all_goals
      unfold parseReading
      dsimp only
    all_goals rw [hbad]
  · rintro ⟨id, occ, cap, q, t, vh, s⟩ vs hv hbad
    cases hv
    cases occ <;> cases cap <;> cases q <;> cases t <;> cases s <;>
      try rfl
    all_goals
      unfold parseReading
      dsimp only
      rcases parseTraffic _ with _ | tl <;> rw [hbad] <;> rfl

/-- C8 witness: a concrete batch of 5 readings in which exactly the third is
malformed (missing capacity) still yields the other 4 PriceUpdates. -/
theorem claim_C8_witness :
    (tickEmissions
      [⟨1, some 10, some 50, some 2, some "low", some "car", some false⟩,
        ⟨2, some 20, some 40, some 1, some "medium", some "bike", some true⟩,
        ⟨3, some 5, none, some 0, some "high", some "truck", some false⟩,
        ⟨4, some 30, some 60, some 3, some "low", some "truck", some false⟩,
        ⟨5, some 8, some 10, some 1, some "high", some "car", some true⟩]).length = 4 :=
  claim_C8_partial_failure_isolation.2.2.1
    [⟨1, some 10, some 50, some 2, some "low", some "car", some false⟩,
      ⟨2, some 20, some 40, some 1, some "medium", some "bike", some true⟩,
      ⟨3, some 5, none, some 0, some "high", some "truck", some false⟩,
      ⟨4, some 30, some 60, some 3, some "low", some "truck", some false⟩,
      ⟨5, some 8, some 10, some 1, some "high", some "car", some true⟩]
    rfl (by decide)
